import Mathlib

/-!
Shallow embedding of the Mail818 SDK offline-queue and cache subsystem
(`src/offline-queue.ts`, `src/cache.ts`).

Timestamps and TTLs are epoch milliseconds, modelled as `Int`.
Payloads (`data: unknown`) are a type parameter `α`.
`localStorage`/`sessionStorage` for the queue is modelled by `StoredQueue`:
the key may be absent, hold a string that fails to deserialize as a queue
item list (`corrupt`), or hold a serialized item list (`items l`) —
JSON (de)serialization of well-formed lists is modelled as the identity.
-/

namespace Mail818

/-- `QueueItem` from `offline-queue.ts`: id, data, timestamp (ms), retryCount. -/
structure QueueItem (α : Type) where
  id : String
  data : α
  timestamp : Int
  retryCount : Nat
deriving DecidableEq, Repr

/-- The persisted state under the queue's storage key
`mail818_offline_queue`: absent, undeserializable text, or a stored list. -/
inductive StoredQueue (α : Type) where
  | absent : StoredQueue α
  | corrupt : StoredQueue α
  | items : List (QueueItem α) → StoredQueue α
deriving DecidableEq, Repr

/-- In-memory queue plus the persisted storage it writes through to. -/
structure QState (α : Type) where
  queue : List (QueueItem α)
  storage : StoredQueue α
deriving DecidableEq, Repr

namespace OfflineQueue

/-- `this.maxRetries = 3`. -/
def maxRetries : Nat := 3

/-- The 7-day retention window of `loadQueue`, in milliseconds:
`7 * 24 * 60 * 60 * 1000`. -/
def sevenDaysMs : Int := 7 * 24 * 60 * 60 * 1000

/-- `saveQueue`: an empty queue removes the storage key, a non-empty queue
is serialized and written. -/
def saveQueue (q : List (QueueItem α)) : StoredQueue α :=
  if q.isEmpty then .absent else .items q

/-- The keep-condition of `loadQueue`'s filter:
`item.timestamp > cutoff && item.retryCount < this.maxRetries`
with `cutoff = now - 7 days`. -/
def keepItem (now : Int) (i : QueueItem α) : Bool :=
  decide (now - sevenDaysMs < i.timestamp) && decide (i.retryCount < maxRetries)

/-- `loadQueue`: absent storage leaves the queue empty; a deserialization
failure is caught and resets the queue to empty; a stored list is filtered
by `keepItem` and re-persisted iff anything was dropped.  Returns the
loaded in-memory queue together with the (possibly rewritten) storage. -/
def loadQueue (st : StoredQueue α) (now : Int) : List (QueueItem α) × StoredQueue α :=
  match st with
  | .absent => ([], st)
  | .corrupt => ([], st)
  | .items l =>
      let q := l.filter (keepItem now)
      if q.length ≠ l.length then (q, saveQueue q) else (q, st)

/-- The constructor: when `enabled`, run `loadQueue`; otherwise start with
an empty in-memory queue and leave storage untouched. -/
def mkQueue (enabled : Bool) (st : StoredQueue α) (now : Int) : QState α :=
  if enabled then
    let r := loadQueue st now
    ⟨r.1, r.2⟩
  else ⟨[], st⟩

/-- `add(data)`: no-op when `queueSubmissions` is false; otherwise push a
fresh item (`retryCount = 0`, `timestamp = Date.now()`, generated id) and
save.  The generated ULID is passed in as `newId`. -/
def add (queueSubmissions : Bool) (s : QState α) (newId : String) (d : α)
    (now : Int) : QState α :=
  if queueSubmissions then
    let q := s.queue ++ [⟨newId, d, now, 0⟩]
    ⟨q, saveQueue q⟩
  else s

/-- `getAll()`: a snapshot of the queue in insertion order. -/
def getAll (s : QState α) : List (QueueItem α) :=
  s.queue

/-- `size()`. -/
def size (s : QState α) : Nat :=
  s.queue.length

/-- `this.queue.find(i => i.id === item.id)`. -/
def findById : List (QueueItem α) → String → Option (QueueItem α)
  | [], _ => none
  | i :: rest, tid => if i.id == tid then some i else findById rest tid

/-- `findIndex` + `splice(index, 1)`: remove the first item whose id
matches, or report `none` when no id matches (`findIndex` returned -1). -/
def removeFirst : List (QueueItem α) → String → Option (List (QueueItem α))
  | [], _ => none
  | i :: rest, tid =>
      if i.id == tid then some rest
      else (removeFirst rest tid).map (i :: ·)

/-- `remove(item)`: delete the first id-match and save; no-op when the id
is absent. -/
def remove (s : QState α) (item : QueueItem α) : QState α :=
  match removeFirst s.queue item.id with
  | some q => ⟨q, saveQueue q⟩
  | none => s

/-- `queueItem.retryCount++` on the first id-match, in place. -/
def bumpFirst : List (QueueItem α) → String → List (QueueItem α)
  | [], _ => []
  | i :: rest, tid =>
      if i.id == tid then { i with retryCount := i.retryCount + 1 } :: rest
      else i :: bumpFirst rest tid

/-- `incrementRetry(item)`: find by id; if found, increment its retryCount,
save, and return `retryCount < maxRetries` (post-increment); otherwise
return false with nothing changed. -/
def incrementRetry (s : QState α) (item : QueueItem α) : Bool × QState α :=
  match findById s.queue item.id with
  | some i =>
      let q := bumpFirst s.queue item.id
      (decide (i.retryCount + 1 < maxRetries), ⟨q, saveQueue q⟩)
  | none => (false, s)

/-- `clear()`. -/
def clear (_s : QState α) : QState α :=
  ⟨[], saveQueue ([] : List (QueueItem α))⟩

end OfflineQueue

/-!
Cache model (`cache.ts`).  Backend keys: the manager always accesses
`this.prefix + key` with the fixed namespace string `mail818_`, and
`cleanExpired`/`clear` test `key.startsWith(this.prefix)`.  A backend key
is therefore modelled as `SKey`: `ns k` stands for the string
`"mail818_" ++ k` (which satisfies the startsWith test), `raw k` for a
key not starting with the namespace string.  A stored value is either a
serialized `CacheEntry` or text whose JSON decoding fails (`corrupt`).
-/

/-- `CacheEntry` from `cache.ts`: data, timestamp (ms), optional etag. -/
structure CacheEntry (α : Type) where
  data : α
  timestamp : Int
  etag : Option String
deriving DecidableEq, Repr

/-- A backend storage key: inside the `mail818_` namespace or not. -/
inductive SKey where
  | ns : String → SKey
  | raw : String → SKey
deriving DecidableEq, Repr

/-- What one backend slot holds: a decodable entry, or corrupted text. -/
inductive CacheStored (α : Type) where
  | corrupt : CacheStored α
  | good : CacheEntry α → CacheStored α
deriving DecidableEq, Repr

/-- The key-value backend (`localStorage` or `sessionStorage`), as an
association list over backend keys. -/
def CacheStorage (α : Type) : Type := List (SKey × CacheStored α)

/-- `{enabled, ttl}` from `CacheOptions` (the `storage` choice only picks
which backend instance is used and is irrelevant to the semantics). -/
structure CacheOptions where
  enabled : Bool
  ttl : Int
deriving DecidableEq, Repr

namespace CacheManager

/-- `key.startsWith(this.prefix)`. -/
def inNamespace : SKey → Bool
  | .ns _ => true
  | .raw _ => false

/-- `storage.getItem(k)`. -/
def getItem (st : CacheStorage α) (k : SKey) : Option (CacheStored α) :=
  (st.find? (fun p => p.1 == k)).map (·.2)

/-- `storage.setItem(k, v)`: overwrite the slot, or create it. -/
def setItem (st : CacheStorage α) (k : SKey) (v : CacheStored α) :
    CacheStorage α :=
  match st with
  | [] => [(k, v)]
  | p :: rest => if p.1 == k then (k, v) :: rest else p :: setItem rest k v

/-- `storage.removeItem(k)`. -/
def removeItem (st : CacheStorage α) (k : SKey) : CacheStorage α :=
  st.filter (fun p => !(p.1 == k))

/-- `cleanExpired()`: over every namespaced key, remove entries that fail
to decode and entries with `now - entry.timestamp > ttl`; other keys are
untouched.  Note the method never consults `options.enabled`. -/
def cleanExpired (ttl now : Int) (st : CacheStorage α) : CacheStorage α :=
  st.filter (fun p =>
    if inNamespace p.1 then
      match p.2 with
      | .corrupt => false
      | .good e => !(decide (ttl < now - e.timestamp))
    else true)

/-- The constructor: it unconditionally runs `cleanExpired()` on the
chosen backend. -/
def mkCache (opts : CacheOptions) (st : CacheStorage α) (now : Int) :
    CacheStorage α :=
  cleanExpired opts.ttl now st

/-- `get(key)`: miss when disabled, absent, or undecodable (the JSON.parse
exception is caught); an entry with `now - timestamp > ttl` is deleted and
misses; otherwise return the entry's data.  Result: (returned value,
backend state afterwards). -/
def get (opts : CacheOptions) (st : CacheStorage α) (key : String)
    (now : Int) : Option α × CacheStorage α :=
  if opts.enabled then
    match getItem st (.ns key) with
    | none => (none, st)
    | some .corrupt => (none, st)
    | some (.good e) =>
        if decide (opts.ttl < now - e.timestamp) then
          (none, removeItem st (.ns key))
        else (some e.data, st)
  else (none, st)

/-- One possible outcome of a `storage.setItem` attempt: success, a
`QuotaExceededError`, or any other exception. -/
inductive WriteErr where
  | quota : WriteErr
  | other : WriteErr
deriving DecidableEq, Repr

/-- A fallible `storage.setItem(k, v)` attempt whose outcome is `e`. -/
def setItemAttempt (e : Option WriteErr) (st : CacheStorage α) (k : SKey)
    (v : CacheStored α) : Except WriteErr (CacheStorage α) :=
  match e with
  | none => .ok (setItem st k v)
  | some err => .error err

/-- `set(key, value, etag?)`: no-op when disabled; writes
`{data, timestamp: now, etag}`; a `QuotaExceededError` triggers
`cleanExpired()` and exactly one retry whose own failure is swallowed;
any other exception is swallowed with nothing written.  `e1`/`e2` are the
outcomes of the first and the retried `setItem` attempt; the result is
`Except` so that an uncaught exception would show up as `.error`. -/
def set (opts : CacheOptions) (st : CacheStorage α) (key : String) (v : α)
    (etag : Option String) (now : Int) (e1 e2 : Option WriteErr) :
    Except WriteErr (CacheStorage α) :=
  if opts.enabled then
    match setItemAttempt e1 st (.ns key) (.good ⟨v, now, etag⟩) with
    | .ok st' => .ok st'
    | .error err =>
        if err = .quota then
          let st1 := cleanExpired opts.ttl now st
          match setItemAttempt e2 st1 (.ns key) (.good ⟨v, now, etag⟩) with
          | .ok st'' => .ok st''
          | .error _ => .ok st1
        else .ok st
  else .ok st

end CacheManager

/-! Helper lemmas about the queue's list operations. -/

namespace OfflineQueue

theorem saveQueue_eq_items {α : Type} (q : List (QueueItem α)) (h : q ≠ []) :
    saveQueue q = .items q := by
  cases q with
  | nil => exact absurd rfl h
  | cons a l => rfl

theorem findById_of_decomp {α : Type} (pre post : List (QueueItem α))
    (i : QueueItem α) (tid : String)
    (hpre : ∀ j ∈ pre, j.id ≠ tid) (hi : i.id = tid) :
    findById (pre ++ i :: post) tid = some i := by
  induction pre with
  | nil => simp [findById, hi]
  | cons a l ih =>
      have ha : (a.id == tid) = false := by
        simp [hpre a (List.mem_cons_self a l)]
      simp only [List.cons_append, findById, ha, Bool.false_eq_true, if_false]
      exact ih (fun j hj => hpre j (List.mem_cons_of_mem a hj))

theorem findById_of_absent {α : Type} (l : List (QueueItem α)) (tid : String)
    (h : ∀ j ∈ l, j.id ≠ tid) : findById l tid = none := by
  induction l with
  | nil => rfl
  | cons a l ih =>
      have ha : (a.id == tid) = false := by
        simp [h a (List.mem_cons_self a l)]
      simp only [findById, ha, Bool.false_eq_true, if_false]
      exact ih (fun j hj => h j (List.mem_cons_of_mem a hj))

theorem bumpFirst_of_decomp {α : Type} (pre post : List (QueueItem α))
    (i : QueueItem α) (tid : String)
    (hpre : ∀ j ∈ pre, j.id ≠ tid) (hi : i.id = tid) :
    bumpFirst (pre ++ i :: post) tid =
      pre ++ { i with retryCount := i.retryCount + 1 } :: post := by
  induction pre with
  | nil => simp [bumpFirst, hi]
  | cons a l ih =>
      have ha : (a.id == tid) = false := by
        simp [hpre a (List.mem_cons_self a l)]
      simp only [List.cons_append, bumpFirst, ha, Bool.false_eq_true, if_false,
        List.cons.injEq, true_and]
      exact ih (fun j hj => hpre j (List.mem_cons_of_mem a hj))

theorem removeFirst_of_decomp {α : Type} (pre post : List (QueueItem α))
    (i : QueueItem α) (tid : String)
    (hpre : ∀ j ∈ pre, j.id ≠ tid) (hi : i.id = tid) :
    removeFirst (pre ++ i :: post) tid = some (pre ++ post) := by
  induction pre with
  | nil => simp [removeFirst, hi]
  | cons a l ih =>
      have ha : (a.id == tid) = false := by
        simp [hpre a (List.mem_cons_self a l)]
      simp only [List.cons_append, removeFirst, ha, Bool.false_eq_true, if_false,
        List.append_eq]
      rw [ih (fun j hj => hpre j (List.mem_cons_of_mem a hj))]
      rfl

theorem removeFirst_of_absent {α : Type} (l : List (QueueItem α)) (tid : String)
    (h : ∀ j ∈ l, j.id ≠ tid) : removeFirst l tid = none := by
  induction l with
  | nil => rfl
  | cons a l ih =>
      have ha : (a.id == tid) = false := by
        simp [h a (List.mem_cons_self a l)]
      simp only [removeFirst, ha, Bool.false_eq_true, if_false]
      rw [ih (fun j hj => h j (List.mem_cons_of_mem a hj))]
      rfl

theorem loadQueue_items_fst {α : Type} (l : List (QueueItem α)) (now : Int) :
    (loadQueue (.items l) now).1 = l.filter (keepItem now) := by
  simp only [loadQueue]
  split <;> rfl

theorem loadQueue_items_snd {α : Type} (l : List (QueueItem α)) (now : Int) :
    (loadQueue (.items l) now).2 =
      if (l.filter (keepItem now)).length ≠ l.length then
        saveQueue (l.filter (keepItem now))
      else .items l := by
  simp only [loadQueue]
  split <;> simp_all

end OfflineQueue

namespace CacheManager

theorem getItem_setItem {α : Type} (st : CacheStorage α) (k : SKey)
    (v : CacheStored α) : getItem (setItem st k v) k = some v := by
  induction st with
  | nil => simp [getItem, setItem, List.find?]
  | cons p rest ih =>
      by_cases h : p.1 = k
      · simp [setItem, h, getItem, List.find?]
      · have hb : (p.1 == k) = false := by simp [h]
        simp only [setItem, hb, Bool.false_eq_true, if_false, getItem,
          List.find?]
        exact ih

end CacheManager

/-! The claims. -/

open OfflineQueue CacheManager

/-- C1: for an item present in the queue, `incrementRetry` increments that
item's retryCount by exactly one, persists the queue, and returns
`retryCount < 3` post-increment; and for an item enqueued with
`retryCount = 0`, the third `incrementRetry` returns false, the item is
still visible via `getAll()` in the same session, and after reconstructing
the queue from storage the item is absent from `getAll()`. -/
theorem C1_incrementRetry_retry_ceiling {α : Type} :
    (∀ (s : QState α) (item i : QueueItem α)
        (pre post : List (QueueItem α)),
        s.queue = pre ++ i :: post →
        (∀ j ∈ pre, j.id ≠ item.id) →
        i.id = item.id →
        incrementRetry s item =
          (decide (i.retryCount + 1 < maxRetries),
           ⟨pre ++ { i with retryCount := i.retryCount + 1 } :: post,
            saveQueue
              (pre ++ { i with retryCount := i.retryCount + 1 } :: post)⟩))
    ∧ (∀ (tid : String) (d : α) (t tload : Int),
        (incrementRetry (add true ⟨[], .absent⟩ tid d t) ⟨tid, d, t, 0⟩).1
            = true
        ∧ (incrementRetry
            (incrementRetry (add true ⟨[], .absent⟩ tid d t)
              ⟨tid, d, t, 0⟩).2 ⟨tid, d, t, 0⟩).1 = true
        ∧ (incrementRetry
            (incrementRetry
              (incrementRetry (add true ⟨[], .absent⟩ tid d t)
                ⟨tid, d, t, 0⟩).2 ⟨tid, d, t, 0⟩).2 ⟨tid, d, t, 0⟩).1 = false
        ∧ getAll
            (incrementRetry
              (incrementRetry
                (incrementRetry (add true ⟨[], .absent⟩ tid d t)
                  ⟨tid, d, t, 0⟩).2 ⟨tid, d, t, 0⟩).2 ⟨tid, d, t, 0⟩).2
            = [⟨tid, d, t, 3⟩]
        ∧ (mkQueue true
            (incrementRetry
              (incrementRetry
                (incrementRetry (add true ⟨[], .absent⟩ tid d t)
                  ⟨tid, d, t, 0⟩).2 ⟨tid, d, t, 0⟩).2
              ⟨tid, d, t, 0⟩).2.storage tload).queue = []) := by
  constructor
  · intro s item i pre post hq hpre hi
    have hf := findById_of_decomp pre post i item.id hpre hi
    have hb := bumpFirst_of_decomp pre post i item.id hpre hi
    simp [incrementRetry, hq, hf, hb]
  · intro tid d t tload
    simp [add, saveQueue, incrementRetry, findById, bumpFirst, getAll,
      mkQueue, loadQueue, keepItem, maxRetries]

/-- C1 witness: a concrete one-item queue, `incrementRetry` at
`retryCount = 1` yields retryCount 2, persists, and returns true. -/
theorem C1_witness :
    incrementRetry
        (⟨[⟨"A", (5 : Nat), 0, 1⟩], .items [⟨"A", 5, 0, 1⟩]⟩ : QState Nat)
        ⟨"A", 5, 0, 1⟩
      = (true, ⟨[⟨"A", 5, 0, 2⟩], .items [⟨"A", 5, 0, 2⟩]⟩) := by
  have h := (C1_incrementRetry_retry_ceiling (α := Nat)).1
    ⟨[⟨"A", 5, 0, 1⟩], .items [⟨"A", 5, 0, 1⟩]⟩
    ⟨"A", 5, 0, 1⟩ ⟨"A", 5, 0, 1⟩ [] [] rfl (by simp) rfl
  simpa [saveQueue, maxRetries] using h

/-- C4: constructing an enabled queue over storage whose contents fail to
deserialize yields an empty queue without touching storage: `size` is 0
and `getAll` is empty (the caught-exception path of `loadQueue`). -/
theorem C4_corrupt_storage_resets {α : Type} :
    ∀ (now : Int),
      mkQueue (α := α) true .corrupt now = ⟨[], .corrupt⟩
      ∧ size (mkQueue (α := α) true .corrupt now) = 0
      ∧ getAll (mkQueue (α := α) true .corrupt now) = [] := by
  intro now
  exact ⟨rfl, rfl, rfl⟩

/-- C8: with `queueSubmissions = false`, `add` is a complete no-op: the
state (queue and persisted storage) is unchanged, and on an initially
empty queue `getAll` stays empty and storage keeps its prior contents. -/
theorem C8_add_disabled_noop {α : Type} :
    ∀ (s : QState α) (tid : String) (d : α) (t : Int)
      (st : StoredQueue α),
      add false s tid d t = s
      ∧ getAll (add false ⟨[], st⟩ tid d t) = []
      ∧ (add false ⟨[], st⟩ tid d t).storage = st := by
  intro s tid d t st
  exact ⟨rfl, rfl, rfl⟩

/-- C10: `incrementRetry` on an item whose id is not in the queue returns
false and changes nothing: the state (in-memory queue and storage) is
returned untouched. -/
theorem C10_incrementRetry_absent_id {α : Type} :
    ∀ (s : QState α) (item : QueueItem α),
      (∀ j ∈ s.queue, j.id ≠ item.id) →
      incrementRetry s item = (false, s) := by
  intro s item h
  have hf := findById_of_absent s.queue item.id h
  simp [incrementRetry, hf]

/-- C10 witness: a concrete queue holding only id "A"; `incrementRetry`
with id "B" returns false and leaves the state unchanged. -/
theorem C10_witness :
    incrementRetry
        (⟨[⟨"A", (1 : Nat), 0, 0⟩], .items [⟨"A", 1, 0, 0⟩]⟩ : QState Nat)
        ⟨"B", 1, 0, 0⟩
      = (false, ⟨[⟨"A", 1, 0, 0⟩], .items [⟨"A", 1, 0, 0⟩]⟩) :=
  C10_incrementRetry_absent_id
    ⟨[⟨"A", 1, 0, 0⟩], .items [⟨"A", 1, 0, 0⟩]⟩ ⟨"B", 1, 0, 0⟩ (by decide)

/-- C7: `getAll` returns the queue in insertion order; enqueuing a, b, c
gives `[a, b, c]`, and `remove(b)` gives `[a, c]`; in general `remove`
deletes exactly the first id-match (unique when ids are unique),
preserving the relative order of the rest and persisting, and is a no-op
when no item has the id. -/
theorem C7_getAll_order_and_remove {α : Type} :
    (∀ (a b c : α) (t : Int),
        getAll
            (add true (add true (add true ⟨[], .absent⟩ "A" a t) "B" b t)
              "C" c t)
          = [⟨"A", a, t, 0⟩, ⟨"B", b, t, 0⟩, ⟨"C", c, t, 0⟩]
        ∧ getAll
            (remove
              (add true (add true (add true ⟨[], .absent⟩ "A" a t) "B" b t)
                "C" c t)
              ⟨"B", b, t, 0⟩)
          = [⟨"A", a, t, 0⟩, ⟨"C", c, t, 0⟩])
    ∧ (∀ (s : QState α) (item : QueueItem α),
        (∀ j ∈ s.queue, j.id ≠ item.id) → remove s item = s)
    ∧ (∀ (s : QState α) (item i : QueueItem α)
        (pre post : List (QueueItem α)),
        s.queue = pre ++ i :: post →
        (∀ j ∈ pre, j.id ≠ item.id) →
        i.id = item.id →
        remove s item = ⟨pre ++ post, saveQueue (pre ++ post)⟩) := by
  refine ⟨?_, ?_, ?_⟩
  · intro a b c t
    simp [add, saveQueue, getAll, remove, removeFirst]
  · intro s item h
    have hf := removeFirst_of_absent s.queue item.id h
    simp [remove, hf]
  · intro s item i pre post hq hpre hi
    have hf := removeFirst_of_decomp pre post i item.id hpre hi
    simp [remove, hq, hf]

/-- C7 witness: removing an id that is not in a concrete one-item queue
leaves the state unchanged. -/
theorem C7_witness :
    remove (⟨[⟨"A", (1 : Nat), 0, 0⟩], .items [⟨"A", 1, 0, 0⟩]⟩ : QState Nat)
        ⟨"B", 1, 0, 0⟩
      = ⟨[⟨"A", 1, 0, 0⟩], .items [⟨"A", 1, 0, 0⟩]⟩ :=
  (C7_getAll_order_and_remove (α := Nat)).2.1
    ⟨[⟨"A", 1, 0, 0⟩], .items [⟨"A", 1, 0, 0⟩]⟩ ⟨"B", 1, 0, 0⟩ (by decide)

/-- C3 counterexample: at `now = 7 days`, an item with `timestamp = 0` and
`retryCount = 0` has age exactly 7 days — it does not satisfy the claim's
drop condition (`now - timestamp > 7 days` is false, `retryCount < 3`) —
yet the enabled constructor drops it: the code keeps an item only when
`timestamp > now - 7 days`, strictly. -/
theorem C3_counterexample :
    (mkQueue true (.items [⟨"A", (0 : Nat), 0, 0⟩]) sevenDaysMs).queue = []
    ∧ ¬(sevenDaysMs - (0 : Int) > sevenDaysMs)
    ∧ (0 : Nat) < maxRetries := by
  decide

/-- C3 (amended): the enabled constructor over a stored list drops exactly
the items with `now - timestamp ≥ 7 days` (not `>`) or
`retryCount ≥ 3`, keeping the rest in order; if anything was dropped the
filtered list is immediately re-persisted, otherwise storage is left as
it was; hence every loaded item has `retryCount < 3` and age under
7 days. -/
theorem C3_load_sweep_amended {α : Type} :
    ∀ (l : List (QueueItem α)) (now : Int),
      ((mkQueue true (.items l) now).queue =
        l.filter (keepItem now)
      ∧ (∀ i : QueueItem α,
          i ∈ (mkQueue true (.items l) now).queue ↔
            (i ∈ l ∧ now - i.timestamp < sevenDaysMs
              ∧ i.retryCount < maxRetries)))
      ∧ ((mkQueue true (.items l) now).queue.length ≠ l.length →
          (mkQueue true (.items l) now).storage =
            saveQueue ((mkQueue true (.items l) now).queue))
      ∧ ((mkQueue true (.items l) now).queue.length = l.length →
          (mkQueue true (.items l) now).storage = .items l)
      ∧ (∀ i ∈ (mkQueue true (.items l) now).queue,
          i.retryCount < maxRetries ∧ now - i.timestamp < sevenDaysMs) := by
  intro l now
  have hq : (mkQueue true (.items l) now).queue = l.filter (keepItem now) := by
    simp [mkQueue, loadQueue_items_fst]
  have hst : (mkQueue true (.items l) now).storage =
      (loadQueue (.items l) now).2 := by
    simp [mkQueue]
  have hmem : ∀ i : QueueItem α,
      i ∈ (mkQueue true (.items l) now).queue ↔
        (i ∈ l ∧ now - i.timestamp < sevenDaysMs
          ∧ i.retryCount < maxRetries) := by
    intro i
    rw [hq]
    simp only [List.mem_filter, keepItem, Bool.and_eq_true, decide_eq_true_eq]
    constructor
    · rintro ⟨hm, h1, h2⟩
      exact ⟨hm, by omega, h2⟩
    · rintro ⟨hm, h1, h2⟩
      exact ⟨hm, by omega, h2⟩
  refine ⟨⟨hq, hmem⟩, ?_, ?_, ?_⟩
  · intro hlen
    rw [hq] at hlen
    rw [hst, loadQueue_items_snd, if_pos hlen, hq]
  · intro hlen
    rw [hq] at hlen
    rw [hst, loadQueue_items_snd, if_neg (by omega)]
  · intro i hi
    have h := (hmem i).mp hi
    exact ⟨h.2.2, h.2.1⟩

/-- C3 witness: an item with `retryCount = 5` is dropped on load and the
(now empty) filtered list is re-persisted — the storage key is removed. -/
theorem C3_witness :
    (mkQueue true (.items [⟨"A", (0 : Nat), 0, 5⟩]) 0).storage = .absent := by
  have h := (C3_load_sweep_amended (α := Nat) [⟨"A", 0, 0, 5⟩] 0).2.1
    (by decide)
  rw [h]
  decide

/-- C6: `add(data)` on a submissions-enabled queue followed by
reconstructing an enabled queue from the persisted storage (at any load
time within the 7-day retention window of the enqueue time) yields via
`getAll()` an item with the original payload and `retryCount = 0`. -/
theorem C6_add_reload_roundtrip {α : Type} :
    ∀ (s : QState α) (tid : String) (d : α) (t tload : Int),
      tload - t < sevenDaysMs →
      (⟨tid, d, t, 0⟩ : QueueItem α) ∈
        getAll (mkQueue true (add true s tid d t).storage tload) := by
  intro s tid d t tload h
  have hst : (add true s tid d t).storage =
      .items (s.queue ++ [⟨tid, d, t, 0⟩]) := by
    simp only [add, if_pos]
    exact saveQueue_eq_items _ (by simp)
  rw [getAll, hst]
  have hq : (mkQueue true
        (.items (s.queue ++ [(⟨tid, d, t, 0⟩ : QueueItem α)])) tload).queue
      = (s.queue ++ [(⟨tid, d, t, 0⟩ : QueueItem α)]).filter
          (keepItem tload) := by
    simp [mkQueue, loadQueue_items_fst]
  rw [hq]
  apply List.mem_filter.mpr
  refine ⟨by simp, ?_⟩
  simp only [keepItem, maxRetries, sevenDaysMs] at h ⊢
  simp only [Bool.and_eq_true, decide_eq_true_eq]
  exact ⟨by omega, by omega⟩

/-- C6 witness: a concrete add-then-reload round trip at load time 0. -/
theorem C6_witness :
    (⟨"A", (7 : Nat), 0, 0⟩ : QueueItem Nat) ∈
      getAll (mkQueue true (add true ⟨[], .absent⟩ "A" 7 0).storage 0) :=
  C6_add_reload_roundtrip ⟨[], .absent⟩ "A" 7 0 0 (by decide)

/-- C2: for an enabled cache, `get(key)` after the most recent
`set(key, value)` (a successful write at time `t`) returns that value
while `now - t ≤ ttl`, and returns miss with the expired entry deleted
from the backend when `now - t > ttl`; a stored entry whose JSON decoding
fails yields miss with the backend untouched, not an error. -/
theorem C2_cache_ttl_expiry {α : Type} :
    (∀ (ttl : Int) (st : CacheStorage α) (key : String) (v : α)
        (etag : Option String) (t tnow : Int) (st' : CacheStorage α),
        set ⟨true, ttl⟩ st key v etag t none none = .ok st' →
        ((tnow - t ≤ ttl →
            get ⟨true, ttl⟩ st' key tnow = (some v, st'))
        ∧ (ttl < tnow - t →
            get ⟨true, ttl⟩ st' key tnow =
              (none, removeItem st' (.ns key)))))
    ∧ (∀ (ttl : Int) (st : CacheStorage α) (key : String) (tnow : Int),
        getItem st (.ns key) = some .corrupt →
        get ⟨true, ttl⟩ st key tnow = (none, st)) := by
  constructor
  · intro ttl st key v etag t tnow st' h
    simp only [CacheManager.set, CacheManager.setItemAttempt, if_true,
      Except.ok.injEq] at h
    subst h
    have hgi := getItem_setItem st (.ns key)
      (.good (⟨v, t, etag⟩ : CacheEntry α))
    constructor
    · intro hle
      have hd : decide (ttl < tnow - t) = false := by
        simp only [decide_eq_false_iff_not]
        omega
      simp [CacheManager.get, hgi, hd]
    · intro hlt
      have hd : decide (ttl < tnow - t) = true := by
        simpa using hlt
      simp [CacheManager.get, hgi, hd]
  · intro ttl st key tnow h
    simp [CacheManager.get, h]

/-- C2 witness: write value 7 at time 0 into an empty backend with
`ttl = 100`; a read at time 50 hits and leaves the backend unchanged. -/
theorem C2_witness :
    get ⟨true, 100⟩
        ([(SKey.ns "k", CacheStored.good ⟨(7 : Nat), 0, none⟩)]) "k" 50
      = (some 7, [(SKey.ns "k", CacheStored.good ⟨7, 0, none⟩)]) :=
  ((C2_cache_ttl_expiry (α := Nat)).1 100 [] "k" 7 none 0 50
      [(SKey.ns "k", CacheStored.good ⟨7, 0, none⟩)] rfl).1 (by decide)

/-- C5 counterexample: the claim says a disabled cache never touches
storage, including at construction; but the constructor runs
`cleanExpired()` unconditionally, so constructing a disabled manager over
a backend holding one corrupted namespaced entry deletes it. -/
theorem C5_counterexample :
    mkCache ⟨false, 1000⟩
        ([(SKey.ns "k", CacheStored.corrupt)] : CacheStorage Nat) 0 = []
    ∧ ([(SKey.ns "k", CacheStored.corrupt)] : CacheStorage Nat) ≠ [] := by
  constructor
  · rfl
  · simp

/-- C5 (amended): with `enabled = false`, every `set` and `get` call is a
true no-op — `get` always misses and returns the backend unchanged, `set`
returns normally with the backend unchanged under every write outcome —
but construction itself still sweeps expired and corrupted namespaced
entries, since the constructor's `cleanExpired()` ignores `enabled`. -/
theorem C5_disabled_noop_amended {α : Type} :
    ∀ (ttl : Int) (st : CacheStorage α) (key : String) (v : α)
      (etag : Option String) (now : Int) (e1 e2 : Option WriteErr),
      get ⟨false, ttl⟩ st key now = (none, st)
      ∧ set ⟨false, ttl⟩ st key v etag now e1 e2 = .ok st := by
  intro ttl st key v etag now e1 e2
  exact ⟨rfl, rfl⟩

/-- C9: `set` never propagates a storage exception: every outcome of the
two write attempts yields a normal return; a quota failure sweeps expired
entries and retries exactly once (a successful retry caches the value),
a failing retry returns normally having cached nothing beyond the sweep,
and any other exception returns normally with the backend unchanged. -/
theorem C9_set_never_throws {α : Type} :
    ∀ (en : Bool) (ttl : Int) (st : CacheStorage α) (key : String) (v : α)
      (etag : Option String) (now : Int) (e1 e2 : Option WriteErr),
      (∃ st' : CacheStorage α,
        set ⟨en, ttl⟩ st key v etag now e1 e2 = .ok st')
      ∧ (set ⟨true, ttl⟩ st key v etag now (some .quota) none =
          .ok (setItem (cleanExpired ttl now st) (.ns key)
            (.good ⟨v, now, etag⟩)))
      ∧ (∀ err : WriteErr,
          set ⟨true, ttl⟩ st key v etag now (some .quota) (some err) =
            .ok (cleanExpired ttl now st))
      ∧ (set ⟨true, ttl⟩ st key v etag now (some .other) e2 = .ok st)
      ∧ getItem
          (setItem (cleanExpired ttl now st) (.ns key)
            (.good ⟨v, now, etag⟩)) (.ns key)
          = some (.good ⟨v, now, etag⟩) := by
  intro en ttl st key v etag now e1 e2
  refine ⟨?_, rfl, fun err => rfl, rfl, getItem_setItem _ _ _⟩
  cases en with
  | false => exact ⟨st, rfl⟩
  | true =>
      cases e1 with
      | none => exact ⟨_, rfl⟩
      | some err =>
          cases err with
          | quota =>
              cases e2 with
              | none => exact ⟨_, rfl⟩
              | some e => exact ⟨_, rfl⟩
          | other => exact ⟨st, rfl⟩

end Mail818
